import Mathlib

/-
Verification development for the librato-collect agent (src/main.go).

The program fetches a JSON document over HTTP, extracts gauge and counter
values by dotted path, assembles a batch, and POSTs it with basic auth.

Modelling choices:
* JSON numbers are modelled as rationals (`ℚ`).  Go decodes every JSON
  number into a `float64`; the claims under study concern integrality,
  truncation and pass-through of values, which rationals capture exactly
  for the decimal literals involved.
* Network I/O is abstracted into an environment record (`NetEnv`) holding
  the response each HTTP call would observe (`none` = transport failure).
* Go panics become `Except` errors; the `recover` handler in `collect`
  becomes the surrounding `match` that maps any error to the zero count.
* The path resolver comes from the external `jsonq` dependency, whose
  source is not part of this repository; it is modelled from the spec
  (section 4.1) and marked as such below.
-/

set_option autoImplicit false

namespace LibratoCollect

/-- Untyped JSON tree, the shape Go's `encoding/json` produces for
`map[string]interface{}` documents (numbers as `ℚ`, see header). -/
inductive JsonValue : Type where
  | num (q : ℚ)
  | str (s : String)
  | boolean (b : Bool)
  | null
  | obj (fields : List (String × JsonValue))
  | arr (elems : List JsonValue)

/-- Resolution failures of the path resolver, as classified by the spec:
`pathNotFound` for a missing key or a child lookup on a non-object,
`typeMismatch` for a non-numeric leaf or a fractional value requested
as an integer. -/
inductive ResolveError : Type where
  | pathNotFound
  | typeMismatch
  deriving DecidableEq, Repr

/-- First-match association-list lookup (Go map indexing; decoded JSON
objects have unique keys). -/
def lookupKV {α : Type} : List (String × α) → String → Option α
  | [], _ => none
  | (k2, v) :: rest, k => if k2 = k then some v else lookupKV rest k

/-- Go map assignment `m[k] = v`: overwrite the existing entry for `k`,
or append a fresh one. -/
def insertKV {α : Type} : List (String × α) → String → α → List (String × α)
  | [], k, v => [(k, v)]
  | (k2, w) :: rest, k, v =>
    if k2 = k then (k, v) :: rest else (k2, w) :: insertKV rest k v

/-- Modelled from the spec: the recursive walk of the external `jsonq`
dependency (not part of this repository).  Each segment must find its key
in an object, else `pathNotFound` (spec section 4.1). -/
def rquery : JsonValue → List String → Except ResolveError JsonValue
  | v, [] => .ok v
  | .obj fields, seg :: rest =>
    match lookupKV fields seg with
    | some w => rquery w rest
    | none => .error .pathNotFound
  | _, _ :: _ => .error .pathNotFound

/-- Truncation toward zero of a rational to an integer, the semantics of
Go's `int(f)` conversion for an in-range `float64`. -/
def truncQ (q : ℚ) : ℤ := if 0 ≤ q then ⌊q⌋ else ⌈q⌉

/-- Modelled from the spec: `jsonq.Float` of the external dependency.
A numeric leaf passes through with float64 (here: exact) semantics;
anything else is a `typeMismatch` (spec section 4.1). -/
def jqFloat (doc : JsonValue) (path : List String) : Except ResolveError ℚ :=
  match rquery doc path with
  | .error e => .error e
  | .ok (.num q) => .ok q
  | .ok _ => .error .typeMismatch

/-- Modelled from the spec: `jsonq.Int` of the external dependency.
A numeric leaf with a non-zero fractional part is a `typeMismatch`;
an integral leaf is coerced by 64-bit signed integer truncation
(truncation toward zero, spec section 4.1). -/
def jqInt (doc : JsonValue) (path : List String) : Except ResolveError ℤ :=
  match rquery doc path with
  | .error e => .error e
  | .ok (.num q) => if q.den = 1 then .ok (truncQ q) else .error .typeMismatch
  | .ok _ => .error .typeMismatch

/-- Splitting a character list on every literal dot, empty segments
preserved: the recursion behind `splitPath`. -/
def splitDots : List Char → List String
  | [] => [""]
  | c :: rest =>
    match splitDots rest with
    | [] => [""]
    | seg :: segs =>
      if c = '.' then "" :: seg :: segs
      else String.mk (c :: seg.data) :: segs

/-- Go's `strings.Split(path, ".")`, implemented structurally over the
path's characters. -/
def splitPath (path : String) : List String := splitDots path.data

/-- Source type `gauge`: a named floating-point metric value. -/
structure gauge where
  value : ℚ
  deriving DecidableEq, Repr

/-- Source type `counter`: a named integer metric value. -/
structure counter where
  value : ℤ
  deriving DecidableEq, Repr

/-- Source type `batch`: maps (association lists with unique keys) of
gauge and counter names to values, plus the source label. -/
structure batch where
  gauges : List (String × gauge)
  counters : List (String × counter)
  source : String
  deriving DecidableEq, Repr

/-- The gauge loop of `batchMetrics` (src/main.go lines 156-163): resolve
each path as a float, panic (here: error) on the first failure, record
the value under the literal path string. -/
def resolveGauges (doc : JsonValue) :
    List String → List (String × gauge) → Except ResolveError (List (String × gauge))
  | [], acc => .ok acc
  | path :: rest, acc =>
    match jqFloat doc (splitPath path) with
    | .error e => .error e
    | .ok v => resolveGauges doc rest (insertKV acc path ⟨v⟩)

/-- The counter loop of `batchMetrics` (src/main.go lines 165-172). -/
def resolveCounters (doc : JsonValue) :
    List String → List (String × counter) → Except ResolveError (List (String × counter))
  | [], acc => .ok acc
  | path :: rest, acc =>
    match jqInt doc (splitPath path) with
    | .error e => .error e
    | .ok v => resolveCounters doc rest (insertKV acc path ⟨v⟩)

/-- Source function `batchMetrics` (src/main.go lines 149-175): build the
batch from the document, failing on the first unresolvable path. -/
def batchMetrics (doc : JsonValue) (source : String) (gauges counters : List String) :
    Except ResolveError batch :=
  match resolveGauges doc gauges [] with
  | .error e => .error e
  | .ok gs =>
    match resolveCounters doc counters [] with
    | .error e => .error e
    | .ok cs => .ok ⟨gs, cs, source⟩

/-- Rank of a byte's 6-bit group in the URL-safe base64 alphabet
`A-Z a-z 0-9 - _` (Go's `base64.URLEncoding` alphabet). -/
def b64urlChar (n : Nat) : Char :=
  if n < 26 then Char.ofNat (65 + n)
  else if n < 52 then Char.ofNat (97 + (n - 26))
  else if n < 62 then Char.ofNat (48 + (n - 52))
  else if n = 62 then Char.ofNat 45
  else Char.ofNat 95

/-- URL-safe base64 with `=` padding (Go's `base64.URLEncoding.EncodeToString`)
over a byte list (each entry a byte value below 256). -/
def base64urlEncode : List Nat → String
  | [] => ""
  | [b1] =>
    String.mk [b64urlChar (b1 / 4), b64urlChar (b1 % 4 * 16), Char.ofNat 61, Char.ofNat 61]
  | [b1, b2] =>
    String.mk [b64urlChar (b1 / 4), b64urlChar (b1 % 4 * 16 + b2 / 16),
      b64urlChar (b2 % 16 * 4), Char.ofNat 61]
  | b1 :: b2 :: b3 :: rest =>
    String.mk [b64urlChar (b1 / 4), b64urlChar (b1 % 4 * 16 + b2 / 16),
      b64urlChar (b2 % 16 * 4 + b3 / 64), b64urlChar (b3 % 64)] ++ base64urlEncode rest

/-- UTF-8 encoding of one character's code point (Go strings are UTF-8,
so `[]byte(s)` yields exactly these bytes). -/
def utf8Bytes (c : Char) : List Nat :=
  let n := c.toNat
  if n < 128 then [n]
  else if n < 2048 then [192 + n / 64, 128 + n % 64]
  else if n < 65536 then [224 + n / 4096, 128 + n / 64 % 64, 128 + n % 64]
  else [240 + n / 262144, 128 + n / 4096 % 64, 128 + n / 64 % 64, 128 + n % 64]

/-- UTF-8 bytes of a string (Go's `[]byte(s)` conversion), as naturals. -/
def strBytes (s : String) : List Nat := s.data.flatMap utf8Bytes

/-- Source function `basicAuth` (src/main.go lines 130-133). -/
def basicAuth (u p : String) : String :=
  "Basic " ++ base64urlEncode (strBytes (u ++ ":" ++ p))

/-- Errors a collection cycle can hit (Go panics in the source):
transport failure, non-200 HTTP status carrying the panic text, a body
that does not decode to a JSON object, or a path-resolution failure. -/
inductive CollectError : Type where
  | transport (op : String)
  | httpStatus (msg : String)
  | decodeError
  | resolve (e : ResolveError)
  deriving DecidableEq, Repr

/-- Decidable equality of cycle outcomes, for concrete comparisons. -/
instance exceptDecEq {e a : Type} [DecidableEq e] [DecidableEq a] :
    DecidableEq (Except e a) := fun x y =>
  match x, y with
  | .error e1, .error e2 =>
    if h : e1 = e2 then .isTrue (h ▸ rfl)
    else .isFalse (fun he => h (Except.noConfusion he id))
  | .ok v1, .ok v2 =>
    if h : v1 = v2 then .isTrue (h ▸ rfl)
    else .isFalse (fun he => h (Except.noConfusion he id))
  | .error _, .ok _ => .isFalse (fun he => Except.noConfusion he)
  | .ok _, .error _ => .isFalse (fun he => Except.noConfusion he)

/-- Response observed by the GET in `fetchMetrics`.  `statusText` is Go's
`resp.Status` (for example "503 Service Unavailable"); `rawBody` is the
body text; `decoded` is the outcome of `json.Decode` into
`map[string]interface{}` (`none` when the body is not a JSON object). -/
structure FetchResponse where
  status : Nat
  statusText : String
  rawBody : String
  decoded : Option (List (String × JsonValue))

/-- Response observed by the POST in `postBatch`. -/
structure PostResponse where
  status : Nat
  statusText : String
  body : String

/-- Source function `fetchMetrics` (src/main.go lines 177-197), with the
network abstracted: `none` is a transport failure of the GET.  The status
is checked for strict equality with 200 before the body is decoded; the
panic text for a bad status is built from the status text alone. -/
def fetchMetrics (r : Option FetchResponse) : Except CollectError JsonValue :=
  match r with
  | none => .error (.transport "GET")
  | some resp =>
    if resp.status = 200 then
      match resp.decoded with
      | some fields => .ok (.obj fields)
      | none => .error .decodeError
    else .error (.httpStatus ("received a " ++ resp.statusText ++ " response"))

/-- HTTP request assembled by `postBatch` before sending. -/
structure HttpRequest where
  method : String
  requestUrl : String
  contentType : String
  authorization : String
  payload : batch

/-- Request construction of `postBatch` (src/main.go lines 97-110): POST to
the fixed Librato endpoint with JSON content type and basic auth. -/
def buildPostRequest (b : batch) (email token : String) : HttpRequest :=
  { method := "POST"
    requestUrl := "https://metrics-api.librato.com/v1/metrics"
    contentType := "application/json"
    authorization := basicAuth email token
    payload := b }

/-- Status handling of `postBatch` (src/main.go lines 111-127), with the
network abstracted: `none` is a transport failure of the POST.  A non-200
status panics with a text built from the status text and the response
body. -/
def postBatchResult (r : Option PostResponse) : Except CollectError Unit :=
  match r with
  | none => .error (.transport "POST")
  | some resp =>
    if resp.status = 200 then .ok ()
    else
      .error (.httpStatus ("received " ++ resp.statusText ++ "\n\n" ++ resp.body ++ "\n"))

/-- Network environment of one collection cycle: what the GET and the POST
would observe. -/
structure NetEnv where
  fetchResp : Option FetchResponse
  postResp : Option PostResponse

/-- Source function `collect` (src/main.go lines 59-83), returning the
metric count together with whether the POST was attempted.  The deferred
`recover` handler turns any panic into a normal return of the zero count,
so every error branch yields 0. -/
def collectRun (env : NetEnv) (source : String) (gaugePaths counterPaths : List String) :
    Nat × Bool :=
  match fetchMetrics env.fetchResp with
  | .error _ => (0, false)
  | .ok doc =>
    match batchMetrics doc source gaugePaths counterPaths with
    | .error _ => (0, false)
    | .ok b =>
      match postBatchResult env.postResp with
      | .error _ => (0, true)
      | .ok _ => (b.counters.length + b.gauges.length, true)

/-- The value `collect` returns to its caller: the count alone. -/
def collect (env : NetEnv) (source : String) (gaugePaths counterPaths : List String) : Nat :=
  (collectRun env source gaugePaths counterPaths).1

/-- Fatal configuration errors of `main`: a missing URL exits the process
before any cycle runs (src/main.go lines 38-42). -/
inductive ConfigError : Type where
  | noURL
  deriving DecidableEq, Repr

/-- Source function `main` (src/main.go lines 22-57), scheduling aside:
with no URL the process exits before any collection cycle; otherwise one
cycle runs per tick (`envs` lists the network environment of each tick)
and each cycle's count is logged, failures included. -/
def mainModel (metricsURL source : String) (gaugePaths counterPaths : List String)
    (envs : List NetEnv) : Except ConfigError (List Nat) :=
  if metricsURL = "" then .error .noURL
  else .ok (envs.map (fun env => collect env source gaugePaths counterPaths))

/-- JSON serialization of the gauges map: each entry becomes
`name : [value: number]` (struct `gauge`, tag `value`). -/
def encodeGauges (l : List (String × gauge)) : List (String × JsonValue) :=
  l.map (fun p => (p.1, .obj [("value", .num p.2.value)]))

/-- JSON serialization of the counters map. -/
def encodeCounters (l : List (String × counter)) : List (String × JsonValue) :=
  l.map (fun p => (p.1, .obj [("value", .num (p.2.value : ℚ))]))

/-- Source serialization `json.Marshal(batch)` (struct tags at src/main.go
lines 135-147): an object with exactly the keys `gauges`, `counters`,
`source`, in struct-field order. -/
def encodeBatch (b : batch) : JsonValue :=
  .obj [("gauges", .obj (encodeGauges b.gauges)),
        ("counters", .obj (encodeCounters b.counters)),
        ("source", .str b.source)]

/-- JSON deserialization of one gauge: an object whose `value` key holds a
number. -/
def decodeGauge (v : JsonValue) : Option gauge :=
  match v with
  | .obj fields =>
    match lookupKV fields "value" with
    | some (.num q) => some ⟨q⟩
    | _ => none
  | _ => none

/-- JSON deserialization of one counter: an object whose `value` key holds
an integral number (decoding a fractional number into a Go `int` fails). -/
def decodeCounter (v : JsonValue) : Option counter :=
  match v with
  | .obj fields =>
    match lookupKV fields "value" with
    | some (.num q) => if q.den = 1 then some ⟨q.num⟩ else none
    | _ => none
  | _ => none

/-- Entry-wise deserialization of a name-to-value JSON object. -/
def decodeEntries {α : Type} (decodeOne : JsonValue → Option α) :
    List (String × JsonValue) → Option (List (String × α))
  | [] => some []
  | (k, v) :: rest =>
    match decodeOne v, decodeEntries decodeOne rest with
    | some a, some l => some ((k, a) :: l)
    | _, _ => none

/-- JSON deserialization of a whole batch, inverting `encodeBatch`. -/
def decodeBatch (v : JsonValue) : Option batch :=
  match v with
  | .obj fields =>
    match lookupKV fields "gauges", lookupKV fields "counters", lookupKV fields "source" with
    | some (.obj gs), some (.obj cs), some (.str src) =>
      match decodeEntries decodeGauge gs, decodeEntries decodeCounter cs with
      | some gl, some cl => some ⟨gl, cl, src⟩
      | _, _ => none
    | _, _, _ => none
  | _ => none

/-- Top-level key list of a JSON object. -/
def objKeys (v : JsonValue) : Option (List String) :=
  match v with
  | .obj fields => some (fields.map Prod.fst)
  | _ => none

/-- Follows the spec's words (sections 4.2 and 7): the resolution failure
of a single requested path, gauges resolved as floats and counters as
integers. -/
def pathFailure (doc : JsonValue) (asCounter : Bool) (path : String) : Option ResolveError :=
  if asCounter then
    match jqInt doc (splitPath path) with
    | .error e => some e
    | .ok _ => none
  else
    match jqFloat doc (splitPath path) with
    | .error e => some e
    | .ok _ => none

/-- Follows the spec's words: the first resolution failure encountered
when the gauge paths are processed in order, then the counter paths. -/
def firstFailure (doc : JsonValue) (gaugePaths counterPaths : List String) :
    Option ResolveError :=
  ((gaugePaths.map (fun p => pathFailure doc false p) ++
    counterPaths.map (fun p => pathFailure doc true p)).filterMap id).head?

/-- Looking up the key just inserted finds the new value. -/
theorem lookupKV_insertKV_self {α : Type} (l : List (String × α)) (k : String) (v : α) :
    lookupKV (insertKV l k v) k = some v := by
  induction l with
  | nil => simp [insertKV, lookupKV]
  | cons hd tl ih =>
    obtain ⟨k2, w⟩ := hd
    by_cases h : k2 = k
    · simp [insertKV, h, lookupKV]
    · simp [insertKV, h, lookupKV, ih]

/-- Inserting one key leaves lookups of other keys unchanged. -/
theorem lookupKV_insertKV_ne {α : Type} (l : List (String × α)) (k k2 : String) (v : α)
    (h : k ≠ k2) : lookupKV (insertKV l k v) k2 = lookupKV l k2 := by
  induction l with
  | nil => simp [insertKV, lookupKV, h]
  | cons hd tl ih =>
    obtain ⟨k3, w⟩ := hd
    by_cases h3 : k3 = k
    · subst h3
      simp [insertKV, lookupKV, h]
    · simp only [insertKV, if_neg h3, lookupKV]
      by_cases h4 : k3 = k2
      · simp [h4]
      · simp [h4, ih]

/-- Inserting a fresh key grows the map by one entry. -/
theorem length_insertKV {α : Type} (l : List (String × α)) (k : String) (v : α)
    (h : k ∉ l.map Prod.fst) : (insertKV l k v).length = l.length + 1 := by
  induction l with
  | nil => simp [insertKV]
  | cons hd tl ih =>
    obtain ⟨k2, w⟩ := hd
    simp only [List.map_cons, List.mem_cons] at h
    push_neg at h
    have hne : k2 ≠ k := fun he => h.1 he.symm
    simp only [insertKV, if_neg hne, List.length_cons]
    rw [ih h.2]

/-- Key membership after an insertion. -/
theorem mem_map_fst_insertKV {α : Type} (l : List (String × α)) (k a : String) (v : α) :
    a ∈ (insertKV l k v).map Prod.fst ↔ a ∈ l.map Prod.fst ∨ a = k := by
  induction l with
  | nil => simp [insertKV]
  | cons hd tl ih =>
    obtain ⟨k2, w⟩ := hd
    simp only [insertKV]
    split
    · rename_i h
      subst h
      simp only [List.map_cons, List.mem_cons]
      tauto
    · simp only [List.map_cons, List.mem_cons, ih]
      tauto

/-- Truncation toward zero is the identity on integers. -/
theorem truncQ_intCast (n : ℤ) : truncQ (n : ℚ) = n := by
  unfold truncQ
  split <;> simp

/-- On an integral rational, truncation returns the numerator. -/
theorem truncQ_den_one (q : ℚ) (h : q.den = 1) : truncQ q = q.num := by
  conv_lhs => rw [← (Rat.den_eq_one_iff q).1 h]
  rw [truncQ_intCast]

/-- The gauge loop fails with `e` exactly when `e` is the first gauge-path
resolution failure, independently of the accumulator. -/
theorem resolveGauges_error_iff (doc : JsonValue) (e : ResolveError) :
    ∀ (ps : List String) (acc : List (String × gauge)),
      (resolveGauges doc ps acc = .error e ↔
        ((ps.map (fun p => pathFailure doc false p)).filterMap id).head? = some e) := by
  intro ps
  induction ps with
  | nil => intro acc; simp [resolveGauges]
  | cons p0 rest ih =>
    intro acc
    cases hj : jqFloat doc (splitPath p0) with
    | error e2 =>
      simp [resolveGauges, hj, pathFailure, eq_comm]
    | ok v =>
      simp [resolveGauges, hj, pathFailure, ih]

/-- Counter-loop analogue of `resolveGauges_error_iff`. -/
theorem resolveCounters_error_iff (doc : JsonValue) (e : ResolveError) :
    ∀ (ps : List String) (acc : List (String × counter)),
      (resolveCounters doc ps acc = .error e ↔
        ((ps.map (fun p => pathFailure doc true p)).filterMap id).head? = some e) := by
  intro ps
  induction ps with
  | nil => intro acc; simp [resolveCounters]
  | cons p0 rest ih =>
    intro acc
    cases hj : jqInt doc (splitPath p0) with
    | error e2 =>
      simp [resolveCounters, hj, pathFailure, eq_comm]
    | ok v =>
      simp [resolveCounters, hj, pathFailure, ih]

/-- The gauge loop succeeds exactly when no gauge path fails. -/
theorem resolveGauges_ok_iff (doc : JsonValue) (ps : List String)
    (acc : List (String × gauge)) :
    (∃ l, resolveGauges doc ps acc = .ok l) ↔
      ((ps.map (fun p => pathFailure doc false p)).filterMap id).head? = none := by
  cases hres : resolveGauges doc ps acc with
  | error e =>
    have hsome := (resolveGauges_error_iff doc e ps acc).1 hres
    constructor
    · intro hex
      obtain ⟨l, hl⟩ := hex
      exact Except.noConfusion hl
    · intro hnone
      rw [hsome] at hnone
      exact Option.noConfusion hnone
  | ok l =>
    constructor
    · intro _
      cases hh : ((ps.map (fun p => pathFailure doc false p)).filterMap id).head? with
      | none => rfl
      | some e =>
        have := (resolveGauges_error_iff doc e ps acc).2 hh
        rw [hres] at this
        exact Except.noConfusion this
    · intro _
      exact ⟨l, rfl⟩

/-- Counter-loop analogue of `resolveGauges_ok_iff`. -/
theorem resolveCounters_ok_iff (doc : JsonValue) (ps : List String)
    (acc : List (String × counter)) :
    (∃ l, resolveCounters doc ps acc = .ok l) ↔
      ((ps.map (fun p => pathFailure doc true p)).filterMap id).head? = none := by
  cases hres : resolveCounters doc ps acc with
  | error e =>
    have hsome := (resolveCounters_error_iff doc e ps acc).1 hres
    constructor
    · intro hex
      obtain ⟨l, hl⟩ := hex
      exact Except.noConfusion hl
    · intro hnone
      rw [hsome] at hnone
      exact Option.noConfusion hnone
  | ok l =>
    constructor
    · intro _
      cases hh : ((ps.map (fun p => pathFailure doc true p)).filterMap id).head? with
      | none => rfl
      | some e =>
        have := (resolveCounters_error_iff doc e ps acc).2 hh
        rw [hres] at this
        exact Except.noConfusion this
    · intro _
      exact ⟨l, rfl⟩

/-- If the counter loop succeeds, every requested counter path resolved. -/
theorem resolveCounters_ok_forall (doc : JsonValue) :
    ∀ (ps : List String) (acc l : List (String × counter)),
      resolveCounters doc ps acc = .ok l →
      ∀ p ∈ ps, ∃ z, jqInt doc (splitPath p) = .ok z := by
  intro ps
  induction ps with
  | nil => intro acc l _ p hp; exact absurd hp (List.not_mem_nil p)
  | cons p0 rest ih =>
    intro acc l h p hp
    cases hj : jqInt doc (splitPath p0) with
    | error e =>
      simp only [resolveCounters, hj] at h
      exact Except.noConfusion h
    | ok v =>
      simp only [resolveCounters, hj] at h
      rcases List.mem_cons.1 hp with rfl | hmem
      · exact ⟨v, hj⟩
      · exact ih _ _ h p hmem

/-- A successful counter loop records, under each requested path, exactly
the value that path resolves to (later duplicates overwrite with the same
value). -/
theorem resolveCounters_ok_lookup (doc : JsonValue) (p : String) (z : ℤ)
    (hz : jqInt doc (splitPath p) = .ok z) :
    ∀ (ps : List String) (acc l : List (String × counter)),
      resolveCounters doc ps acc = .ok l →
      (p ∈ ps ∨ lookupKV acc p = some ⟨z⟩) →
      lookupKV l p = some ⟨z⟩ := by
  intro ps
  induction ps with
  | nil =>
    intro acc l h hc
    simp only [resolveCounters, Except.ok.injEq] at h
    subst h
    rcases hc with hmem | hlook
    · exact absurd hmem (List.not_mem_nil p)
    · exact hlook
  | cons p0 rest ih =>
    intro acc l h hc
    cases hj : jqInt doc (splitPath p0) with
    | error e =>
      simp only [resolveCounters, hj] at h
      exact Except.noConfusion h
    | ok v =>
      simp only [resolveCounters, hj] at h
      by_cases hpp : p = p0
      · subst hpp
        have hv : v = z := by
          rw [hj] at hz
          injection hz
        apply ih _ _ h
        right
        rw [hv] at hj ⊢
        exact lookupKV_insertKV_self acc p ⟨z⟩
      · apply ih _ _ h
        rcases hc with hmem | hlook
        · rcases List.mem_cons.1 hmem with rfl | hmem2
          · exact absurd rfl hpp
          · exact Or.inl hmem2
        · right
          rw [lookupKV_insertKV_ne acc p0 p _ (fun he => hpp he.symm)]
          exact hlook

/-- Gauge analogue of `resolveCounters_ok_lookup`. -/
theorem resolveGauges_ok_lookup (doc : JsonValue) (p : String) (q : ℚ)
    (hq : jqFloat doc (splitPath p) = .ok q) :
    ∀ (ps : List String) (acc l : List (String × gauge)),
      resolveGauges doc ps acc = .ok l →
      (p ∈ ps ∨ lookupKV acc p = some ⟨q⟩) →
      lookupKV l p = some ⟨q⟩ := by
  intro ps
  induction ps with
  | nil =>
    intro acc l h hc
    simp only [resolveGauges, Except.ok.injEq] at h
    subst h
    rcases hc with hmem | hlook
    · exact absurd hmem (List.not_mem_nil p)
    · exact hlook
  | cons p0 rest ih =>
    intro acc l h hc
    cases hj : jqFloat doc (splitPath p0) with
    | error e =>
      simp only [resolveGauges, hj] at h
      exact Except.noConfusion h
    | ok v =>
      simp only [resolveGauges, hj] at h
      by_cases hpp : p = p0
      · subst hpp
        have hv : v = q := by
          rw [hj] at hq
          injection hq
        apply ih _ _ h
        right
        rw [hv] at hj ⊢
        exact lookupKV_insertKV_self acc p ⟨q⟩
      · apply ih _ _ h
        rcases hc with hmem | hlook
        · rcases List.mem_cons.1 hmem with rfl | hmem2
          · exact absurd rfl hpp
          · exact Or.inl hmem2
        · right
          rw [lookupKV_insertKV_ne acc p0 p _ (fun he => hpp he.symm)]
          exact hlook

/-- A successful `batchMetrics` decomposes into successful gauge and
counter loops starting from empty maps, tagged with the source. -/
theorem batchMetrics_ok_parts (doc : JsonValue) (s : String) (gs cs : List String)
    (b : batch) (h : batchMetrics doc s gs cs = .ok b) :
    resolveGauges doc gs [] = .ok b.gauges ∧
    resolveCounters doc cs [] = .ok b.counters ∧ b.source = s := by
  cases hg : resolveGauges doc gs [] with
  | error e =>
    simp only [batchMetrics, hg] at h
    exact Except.noConfusion h
  | ok gl =>
    cases hc : resolveCounters doc cs [] with
    | error e =>
      simp only [batchMetrics, hg, hc] at h
      exact Except.noConfusion h
    | ok cl =>
      simp only [batchMetrics, hg, hc, Except.ok.injEq] at h
      subst h
      exact ⟨rfl, rfl, rfl⟩

/-- With duplicate-free paths, a successful gauge loop adds exactly one
entry per requested path. -/
theorem resolveGauges_ok_length (doc : JsonValue) :
    ∀ (ps : List String) (acc l : List (String × gauge)), ps.Nodup →
      (∀ p ∈ ps, p ∉ acc.map Prod.fst) →
      resolveGauges doc ps acc = .ok l →
      l.length = acc.length + ps.length := by
  intro ps
  induction ps with
  | nil =>
    intro acc l _ _ h
    simp only [resolveGauges, Except.ok.injEq] at h
    subst h
    simp
  | cons p0 rest ih =>
    intro acc l hnd hfresh h
    cases hj : jqFloat doc (splitPath p0) with
    | error e =>
      simp only [resolveGauges, hj] at h
      exact Except.noConfusion h
    | ok v =>
      simp only [resolveGauges, hj] at h
      have hlen : (insertKV acc p0 ⟨v⟩).length = acc.length + 1 :=
        length_insertKV acc p0 ⟨v⟩ (hfresh p0 (List.mem_cons_self p0 rest))
      have hnd2 := List.nodup_cons.1 hnd
      have hfresh2 : ∀ p ∈ rest, p ∉ (insertKV acc p0 ⟨v⟩).map Prod.fst := by
        intro p hp hmem
        rcases (mem_map_fst_insertKV acc p0 p ⟨v⟩).1 hmem with hin | heq
        · exact hfresh p (List.mem_cons_of_mem _ hp) hin
        · exact hnd2.1 (heq ▸ hp)
      have hrec := ih _ _ hnd2.2 hfresh2 h
      rw [hrec, hlen]
      simp only [List.length_cons]
      omega

/-- Counter-loop analogue of `resolveGauges_ok_length`. -/
theorem resolveCounters_ok_length (doc : JsonValue) :
    ∀ (ps : List String) (acc l : List (String × counter)), ps.Nodup →
      (∀ p ∈ ps, p ∉ acc.map Prod.fst) →
      resolveCounters doc ps acc = .ok l →
      l.length = acc.length + ps.length := by
  intro ps
  induction ps with
  | nil =>
    intro acc l _ _ h
    simp only [resolveCounters, Except.ok.injEq] at h
    subst h
    simp
  | cons p0 rest ih =>
    intro acc l hnd hfresh h
    cases hj : jqInt doc (splitPath p0) with
    | error e =>
      simp only [resolveCounters, hj] at h
      exact Except.noConfusion h
    | ok v =>
      simp only [resolveCounters, hj] at h
      have hlen : (insertKV acc p0 ⟨v⟩).length = acc.length + 1 :=
        length_insertKV acc p0 ⟨v⟩ (hfresh p0 (List.mem_cons_self p0 rest))
      have hnd2 := List.nodup_cons.1 hnd
      have hfresh2 : ∀ p ∈ rest, p ∉ (insertKV acc p0 ⟨v⟩).map Prod.fst := by
        intro p hp hmem
        rcases (mem_map_fst_insertKV acc p0 p ⟨v⟩).1 hmem with hin | heq
        · exact hfresh p (List.mem_cons_of_mem _ hp) hin
        · exact hnd2.1 (heq ▸ hp)
      have hrec := ih _ _ hnd2.2 hfresh2 h
      rw [hrec, hlen]
      simp only [List.length_cons]
      omega

/-- Decoding inverts encoding on the gauges map, entry by entry. -/
theorem decodeEntries_encodeGauges (l : List (String × gauge)) :
    decodeEntries decodeGauge (encodeGauges l) = some l := by
  induction l with
  | nil => simp [encodeGauges, decodeEntries]
  | cons hd tl ih =>
    obtain ⟨k, g⟩ := hd
    simp only [encodeGauges, List.map_cons] at ih ⊢
    simp [decodeEntries, decodeGauge, lookupKV, ih]

/-- Decoding inverts encoding on the counters map, entry by entry. -/
theorem decodeEntries_encodeCounters (l : List (String × counter)) :
    decodeEntries decodeCounter (encodeCounters l) = some l := by
  induction l with
  | nil => simp [encodeCounters, decodeEntries]
  | cons hd tl ih =>
    obtain ⟨k, c⟩ := hd
    simp only [encodeCounters, List.map_cons] at ih ⊢
    simp [decodeEntries, decodeCounter, lookupKV, ih, Rat.den_intCast, Rat.num_intCast]

/-- C1: a requested counter path whose leaf is a number with a non-zero
fractional part makes batch building fail — with `TypeMismatch` when it
is the only requested path — and no batch containing it is ever produced;
a counter path whose leaf is a whole-valued number such as `1.0` succeeds
with the integer value `1`. -/
theorem claim_c1 (doc : JsonValue) (s path : String) (q : ℚ)
    (hres : rquery doc (splitPath path) = .ok (.num q)) :
    (q.den ≠ 1 →
      batchMetrics doc s [] [path] = .error .typeMismatch ∧
      ∀ (gs cs : List String), path ∈ cs → ∀ b, batchMetrics doc s gs cs ≠ .ok b) ∧
    (q.den = 1 →
      batchMetrics doc s [] [path] = .ok ⟨[], [(path, ⟨q.num⟩)], s⟩) := by
  constructor
  · intro hden
    have hjq : jqInt doc (splitPath path) = .error .typeMismatch := by
      simp [jqInt, hres, hden]
    constructor
    · simp [batchMetrics, resolveGauges, resolveCounters, hjq]
    · intro gs cs hmem b hb
      obtain ⟨_, hc, _⟩ := batchMetrics_ok_parts doc s gs cs b hb
      obtain ⟨z, hz⟩ := resolveCounters_ok_forall doc cs [] b.counters hc path hmem
      rw [hjq] at hz
      exact Except.noConfusion hz
  · intro hden
    have hjq : jqInt doc (splitPath path) = .ok q.num := by
      simp [jqInt, hres, hden, truncQ_den_one q hden]
    simp [batchMetrics, resolveGauges, resolveCounters, hjq, insertKV]

/-- C2: in any successfully built batch, each counter entry holds its
leaf number coerced by truncation toward zero, and each gauge entry holds
its leaf number unchanged (float64 pass-through). -/
theorem claim_c2 (doc : JsonValue) (s : String) (gs cs : List String) (b : batch)
    (hb : batchMetrics doc s gs cs = .ok b) :
    (∀ path q, path ∈ cs → rquery doc (splitPath path) = .ok (.num q) →
      lookupKV b.counters path = some ⟨truncQ q⟩) ∧
    (∀ path q, path ∈ gs → rquery doc (splitPath path) = .ok (.num q) →
      lookupKV b.gauges path = some ⟨q⟩) := by
  obtain ⟨hg, hc, _⟩ := batchMetrics_ok_parts doc s gs cs b hb
  constructor
  · intro path q hmem hres
    obtain ⟨z, hz⟩ := resolveCounters_ok_forall doc cs [] b.counters hc path hmem
    have hden : q.den = 1 := by
      by_contra hden
      have hbad : jqInt doc (splitPath path) = .error .typeMismatch := by
        simp [jqInt, hres, hden]
      rw [hbad] at hz
      exact Except.noConfusion hz
    have hz2 : jqInt doc (splitPath path) = .ok (truncQ q) := by
      simp [jqInt, hres, hden]
    exact resolveCounters_ok_lookup doc path (truncQ q) hz2 cs [] b.counters hc (Or.inl hmem)
  · intro path q hmem hres
    have hq : jqFloat doc (splitPath path) = .ok q := by
      simp [jqFloat, hres]
    exact resolveGauges_ok_lookup doc path q hq gs [] b.gauges hg (Or.inl hmem)

/-- C3: batch building is all-or-nothing — it yields a batch exactly when
no requested path fails to resolve, and otherwise yields no batch and
propagates precisely the first resolution failure encountered (gauge
paths in request order, then counter paths). -/
theorem claim_c3 (doc : JsonValue) (s : String) (gs cs : List String) :
    ((∃ b, batchMetrics doc s gs cs = .ok b) ↔ firstFailure doc gs cs = none) ∧
    (∀ e, batchMetrics doc s gs cs = .error e ↔ firstFailure doc gs cs = some e) := by
  have hsplit : firstFailure doc gs cs =
      (((gs.map fun p => pathFailure doc false p).filterMap id).head?).or
        (((cs.map fun p => pathFailure doc true p).filterMap id).head?) := by
    simp [firstFailure, List.filterMap_append, List.head?_append]
  cases hg : resolveGauges doc gs [] with
  | error e1 =>
    have h1 := (resolveGauges_error_iff doc e1 gs []).1 hg
    have hff : firstFailure doc gs cs = some e1 := by
      rw [hsplit, h1]
      rfl
    constructor
    · constructor
      · intro hex
        obtain ⟨b, hb⟩ := hex
        simp only [batchMetrics, hg] at hb
        exact Except.noConfusion hb
      · intro h
        rw [hff] at h
        exact Option.noConfusion h
    · intro e
      constructor
      · intro hbe
        simp only [batchMetrics, hg] at hbe
        injection hbe with h2
        rw [hff, h2]
      · intro hf
        rw [hff] at hf
        injection hf with h2
        simp [batchMetrics, hg, h2]
  | ok gl =>
    have h1 : ((gs.map fun p => pathFailure doc false p).filterMap id).head? = none :=
      (resolveGauges_ok_iff doc gs []).1 ⟨gl, hg⟩
    cases hc : resolveCounters doc cs [] with
    | error e2 =>
      have h2 := (resolveCounters_error_iff doc e2 cs []).1 hc
      have hff : firstFailure doc gs cs = some e2 := by
        rw [hsplit, h1, h2]
        rfl
      constructor
      · constructor
        · intro hex
          obtain ⟨b, hb⟩ := hex
          simp only [batchMetrics, hg, hc] at hb
          exact Except.noConfusion hb
        · intro h
          rw [hff] at h
          exact Option.noConfusion h
      · intro e
        constructor
        · intro hbe
          simp only [batchMetrics, hg, hc] at hbe
          injection hbe with h2
          rw [hff, h2]
        · intro hf
          rw [hff] at hf
          injection hf with h2
          simp [batchMetrics, hg, hc, h2]
    | ok cl =>
      have h2 : ((cs.map fun p => pathFailure doc true p).filterMap id).head? = none :=
        (resolveCounters_ok_iff doc cs []).1 ⟨cl, hc⟩
      have hff : firstFailure doc gs cs = none := by
        rw [hsplit, h1, h2]
        rfl
      constructor
      · constructor
        · intro _
          exact hff
        · intro _
          refine ⟨⟨gl, cl, s⟩, ?h⟩
          simp [batchMetrics, hg, hc]
      · intro e
        constructor
        · intro hbe
          simp only [batchMetrics, hg, hc] at hbe
          exact Except.noConfusion hbe
        · intro hf
          rw [hff] at hf
          exact Option.noConfusion hf

/-- Witness for C1: Scenario C (leaf 42.7 requested as a counter fails
with `TypeMismatch`) and the whole-valued case (leaf 1.0 succeeds with
integer value 1). -/
theorem claim_c1_witness :
    batchMetrics (.obj [("requests", .obj [("total", .num (mkRat 427 10))])])
        "s" [] ["requests.total"] = .error .typeMismatch ∧
    batchMetrics (.obj [("requests", .obj [("total", .num 1)])])
        "s" [] ["requests.total"] = .ok ⟨[], [("requests.total", ⟨1⟩)], "s"⟩ := by
  constructor
  · exact ((claim_c1 (.obj [("requests", .obj [("total", .num (mkRat 427 10))])])
      "s" "requests.total" (mkRat 427 10) rfl).1 (by decide)).1
  · exact (claim_c1 (.obj [("requests", .obj [("total", .num 1)])])
      "s" "requests.total" 1 rfl).2 (by decide)

/-- Witness for C2: a batch built from gauge leaf 512.5 and counter leaf
42 records those exact values. -/
theorem claim_c2_witness :
    lookupKV (batch.counters ⟨[("memory.used", ⟨mkRat 1025 2⟩)],
        [("requests.total", ⟨42⟩)], "s"⟩) "requests.total" = some ⟨truncQ 42⟩ ∧
    lookupKV (batch.gauges ⟨[("memory.used", ⟨mkRat 1025 2⟩)],
        [("requests.total", ⟨42⟩)], "s"⟩) "memory.used" = some ⟨mkRat 1025 2⟩ := by
  have h := claim_c2
    (.obj [("memory", .obj [("used", .num (mkRat 1025 2))]), ("requests", .obj [("total", .num 42)])])
    "s" ["memory.used"] ["requests.total"]
    ⟨[("memory.used", ⟨mkRat 1025 2⟩)], [("requests.total", ⟨42⟩)], "s"⟩ rfl
  exact ⟨h.1 "requests.total" 42 (by simp) rfl, h.2 "memory.used" (mkRat 1025 2) (by simp) rfl⟩

/-- C4: the Authorization header of the send is exactly "Basic " followed
by the URL-safe-alphabet base64 encoding of the bytes of identity, a
colon, and secret; the second conjunct pins the URL-safe alphabet on a
vector whose encoding differs from standard base64. -/
theorem claim_c4 (u p : String) (b : batch) :
    (buildPostRequest b u p).authorization =
      "Basic " ++ base64urlEncode (strBytes (u ++ ":" ++ p)) ∧
    basicAuth "~" "~" = "Basic fjp-" :=
  ⟨rfl, by decide⟩

/-- C5: any response status other than exactly 200 makes both the fetch
and the send fail with the HTTP-status failure kind — 201 and 204
included, the same kind as 500. -/
theorem claim_c5 (r : FetchResponse) (r2 : PostResponse)
    (h : r.status ≠ 200) (h2 : r2.status ≠ 200) :
    (∃ msg, fetchMetrics (some r) = .error (.httpStatus msg)) ∧
    (∃ msg, postBatchResult (some r2) = .error (.httpStatus msg)) := by
  constructor
  · refine ⟨"received a " ++ r.statusText ++ " response", ?hf⟩
    simp [fetchMetrics, h]
  · refine ⟨"received " ++ r2.statusText ++ "\n\n" ++ r2.body ++ "\n", ?hp⟩
    simp [postBatchResult, h2]

/-- Witness for C5 at statuses 201, 204 and 500. -/
theorem claim_c5_witness :
    ((∃ msg, fetchMetrics (some ⟨201, "201 Created", "", some []⟩) =
        .error (.httpStatus msg)) ∧
      (∃ msg, postBatchResult (some ⟨204, "204 No Content", ""⟩) =
        .error (.httpStatus msg))) ∧
    ((∃ msg, fetchMetrics (some ⟨500, "500 Internal Server Error", "", some []⟩) =
        .error (.httpStatus msg)) ∧
      (∃ msg, postBatchResult (some ⟨500, "500 Internal Server Error", ""⟩) =
        .error (.httpStatus msg))) :=
  ⟨claim_c5 ⟨201, "201 Created", "", some []⟩ ⟨204, "204 No Content", ""⟩
      (by decide) (by decide),
    claim_c5 ⟨500, "500 Internal Server Error", "", some []⟩
      ⟨500, "500 Internal Server Error", ""⟩ (by decide) (by decide)⟩

/-- C6 counterexample: the claim says a failed fetch's error carries the
response body text like a failed send's does, but the fetch panic text is
built from the status text alone — two fetch responses differing only in
body yield the same error, while the matching send responses yield
different errors. -/
theorem claim_c6_counterexample :
    fetchMetrics (some ⟨503, "503 Service Unavailable", "invalid credentials", none⟩) =
      .error (.httpStatus "received a 503 Service Unavailable response") ∧
    fetchMetrics (some ⟨503, "503 Service Unavailable", "invalid credentials", none⟩) =
      fetchMetrics (some ⟨503, "503 Service Unavailable", "", none⟩) ∧
    postBatchResult (some ⟨503, "503 Service Unavailable", "invalid credentials"⟩) ≠
      postBatchResult (some ⟨503, "503 Service Unavailable", ""⟩) := by
  refine ⟨rfl, rfl, ?hne⟩
  decide

/-- C6 amended: on a non-200 fetch the error carries the status text only
(panic text "received a (status) response"), while on a non-200 send the
error carries both the status text and the response body text. -/
theorem claim_c6_amended (r : FetchResponse) (r2 : PostResponse)
    (h : r.status ≠ 200) (h2 : r2.status ≠ 200) :
    fetchMetrics (some r) =
      .error (.httpStatus ("received a " ++ r.statusText ++ " response")) ∧
    postBatchResult (some r2) =
      .error (.httpStatus ("received " ++ r2.statusText ++ "\n\n" ++ r2.body ++ "\n")) := by
  constructor
  · simp [fetchMetrics, h]
  · simp [postBatchResult, h2]

/-- Witness for the amended C6 at Scenario E's send failure and a 503
fetch failure. -/
theorem claim_c6_amended_witness :
    fetchMetrics (some ⟨503, "503 Service Unavailable", "oops", none⟩) =
      .error (.httpStatus "received a 503 Service Unavailable response") ∧
    postBatchResult (some ⟨401, "401 Unauthorized", "invalid credentials"⟩) =
      .error (.httpStatus "received 401 Unauthorized\n\ninvalid credentials\n") :=
  claim_c6_amended ⟨503, "503 Service Unavailable", "oops", none⟩
    ⟨401, "401 Unauthorized", "invalid credentials"⟩ (by decide) (by decide)

/-- C7: a successful cycle returns the number of gauge entries plus
counter entries of the built batch; with duplicate-free path lists this
equals the number of requested gauge paths plus counter paths. -/
theorem claim_c7 (env : NetEnv) (doc : JsonValue) (s : String)
    (gs cs : List String) (b : batch)
    (hf : fetchMetrics env.fetchResp = .ok doc)
    (hb : batchMetrics doc s gs cs = .ok b)
    (hp : postBatchResult env.postResp = .ok ()) :
    collect env s gs cs = b.gauges.length + b.counters.length ∧
    (gs.Nodup → cs.Nodup → collect env s gs cs = gs.length + cs.length) := by
  have hcol : collect env s gs cs = b.counters.length + b.gauges.length := by
    simp [collect, collectRun, hf, hb, hp]
  constructor
  · rw [hcol]
    omega
  · intro hgnd hcnd
    obtain ⟨hg2, hc2, _⟩ := batchMetrics_ok_parts doc s gs cs b hb
    have hl1 := resolveGauges_ok_length doc gs [] b.gauges hgnd (by simp) hg2
    have hl2 := resolveCounters_ok_length doc cs [] b.counters hcnd (by simp) hc2
    rw [hcol]
    simp only [List.length_nil] at hl1 hl2
    omega

/-- Witness for C7: one gauge and one counter collected successfully give
count 2. -/
theorem claim_c7_witness :
    collect ⟨some ⟨200, "200 OK", "",
        some [("memory", .obj [("used", .num (mkRat 1025 2))]),
          ("requests", .obj [("total", .num 42)])]⟩,
      some ⟨200, "200 OK", ""⟩⟩ "s" ["memory.used"] ["requests.total"] = 2 := by
  have h := (claim_c7 ⟨some ⟨200, "200 OK", "",
      some [("memory", .obj [("used", .num (mkRat 1025 2))]),
        ("requests", .obj [("total", .num 42)])]⟩, some ⟨200, "200 OK", ""⟩⟩
    (.obj [("memory", .obj [("used", .num (mkRat 1025 2))]),
      ("requests", .obj [("total", .num 42)])])
    "s" ["memory.used"] ["requests.total"]
    ⟨[("memory.used", ⟨mkRat 1025 2⟩)], [("requests.total", ⟨42⟩)], "s"⟩
    rfl rfl rfl).2 (by simp) (by simp)
  simpa using h

/-- C8: serializing a batch yields an object with exactly the top-level
keys gauges, counters and source, and deserializing recovers the source
label and the gauge and counter name-to-value mappings exactly. -/
theorem claim_c8 (b : batch) :
    objKeys (encodeBatch b) = some ["gauges", "counters", "source"] ∧
    decodeBatch (encodeBatch b) = some b := by
  constructor
  · rfl
  · simp [decodeBatch, encodeBatch, lookupKV, decodeEntries_encodeGauges,
      decodeEntries_encodeCounters]

/-- C9: with a URL configured every scheduled cycle runs and reports a
count, failed cycles included (no failure terminates the run); with no
URL the run fails with a configuration error before any cycle. -/
theorem claim_c9 (metricsURL source : String) (gs cs : List String) (envs : List NetEnv) :
    (metricsURL = "" → mainModel metricsURL source gs cs envs = .error .noURL) ∧
    (metricsURL ≠ "" →
      mainModel metricsURL source gs cs envs =
        .ok (envs.map (fun env => collect env source gs cs)) ∧
      ∀ counts, mainModel metricsURL source gs cs envs = .ok counts →
        counts.length = envs.length) := by
  constructor
  · intro h
    simp [mainModel, h]
  · intro h
    have hok : mainModel metricsURL source gs cs envs =
        .ok (envs.map (fun env => collect env source gs cs)) := by
      simp [mainModel, h]
    refine ⟨hok, ?hlen⟩
    intro counts hcounts
    rw [hok] at hcounts
    injection hcounts with h2
    rw [← h2, List.length_map]

/-- Witness for C9: with a URL, a transport-failing first cycle and a
successful second cycle both run and report counts; with no URL the
configuration error precedes any cycle. -/
theorem claim_c9_witness :
    mainModel "http://example.com/metrics" "s" [] []
        [⟨none, none⟩, ⟨some ⟨200, "200 OK", "", some []⟩, some ⟨200, "200 OK", ""⟩⟩] =
      .ok [0, 0] ∧
    mainModel "" "s" [] [] [⟨none, none⟩] = .error .noURL := by
  constructor
  · have h := ((claim_c9 "http://example.com/metrics" "s" [] []
      [⟨none, none⟩, ⟨some ⟨200, "200 OK", "", some []⟩,
        some ⟨200, "200 OK", ""⟩⟩]).2 (by decide)).1
    rw [h]
    rfl
  · exact (claim_c9 "" "s" [] [] [⟨none, none⟩]).1 rfl

/-- C10: whatever stage of a cycle fails, the reported count is the
recovered zero; and a fully successful cycle with empty path lists also
reports zero while still performing the POST — indistinguishable from a
failure by return value alone. -/
theorem claim_c10 (env : NetEnv) (s : String) (gs cs : List String) :
    (∀ e, fetchMetrics env.fetchResp = .error e → collect env s gs cs = 0) ∧
    (∀ doc e, fetchMetrics env.fetchResp = .ok doc →
      batchMetrics doc s gs cs = .error e → collect env s gs cs = 0) ∧
    (∀ doc b e, fetchMetrics env.fetchResp = .ok doc →
      batchMetrics doc s gs cs = .ok b → postBatchResult env.postResp = .error e →
      collect env s gs cs = 0) ∧
    (∀ doc, fetchMetrics env.fetchResp = .ok doc → postBatchResult env.postResp = .ok () →
      collectRun env s [] [] = (0, true)) := by
  refine ⟨?f1, ?f2, ?f3, ?f4⟩
  · intro e he
    simp [collect, collectRun, he]
  · intro doc e hf hbe
    simp [collect, collectRun, hf, hbe]
  · intro doc b e hf hb hp
    simp [collect, collectRun, hf, hb, hp]
  · intro doc hf hp
    simp [collectRun, hf, hp, batchMetrics, resolveGauges, resolveCounters]

/-- Witness for C10: a transport-failed cycle reports 0, and a successful
cycle with no requested paths reports 0 with the POST performed. -/
theorem claim_c10_witness :
    collect ⟨none, none⟩ "s" ["g"] [] = 0 ∧
    collectRun ⟨some ⟨200, "200 OK", "", some []⟩, some ⟨200, "200 OK", ""⟩⟩ "s" [] [] =
      (0, true) := by
  constructor
  · exact (claim_c10 ⟨none, none⟩ "s" ["g"] []).1 (.transport "GET") rfl
  · exact (claim_c10 ⟨some ⟨200, "200 OK", "", some []⟩,
      some ⟨200, "200 OK", ""⟩⟩ "s" [] []).2.2.2 (.obj []) rfl rfl

end LibratoCollect
